import Mathlib

/-!
Verification of the traffic-monitoring core: the line-crossing state machine
of `TrafficMonitoringSystem.process_frame`, the speed estimator
`_calculate_speed`, the configuration validation of `DatabaseManager.__init__`,
and the producer/consumer shutdown protocol of `DatabaseManager`.

Timestamps and coordinates are modelled as rationals; the crossing state store
(`self.vehicle_timestamps`, a Python dict) is modelled as an association list
with unique keys.
-/

namespace Traffic

/-- Fixed physical distance between the two reference lines
(`self.distance = 17`). -/
def distance : ℚ := 17

/-- x-position of the start line (`self.green_line_y = 468`). -/
def green_line_y : ℚ := 468

/-- x-position of the end line (`self.red_line_y = 1138`). -/
def red_line_y : ℚ := 1138

/-- Unit conversion factor from m/s to MPH (`2.23694` in the source). -/
def mph_factor : ℚ := 223694 / 100000

/-- Round a rational to the nearest integer, ties to even — the behaviour of
Python's built-in `round`. -/
def roundHalfEven (q : ℚ) : ℤ :=
  let f := ⌊q⌋
  let frac := q - f
  if frac < 1 / 2 then f
  else if 1 / 2 < frac then f + 1
  else if f % 2 = 0 then f else f + 1

/-- Python's `round(x, 1)`: round to one decimal place, ties to even. -/
def pyRound1 (q : ℚ) : ℚ := (roundHalfEven (q * 10) : ℚ) / 10

/-- The method `TrafficMonitoringSystem._calculate_speed`: time difference, defensive
clamp at zero, metres-per-second to MPH conversion, rounding to one decimal
place. -/
def calculate_speed (start_time end_time : ℚ) : ℚ :=
  let time_diff := end_time - start_time
  if time_diff ≤ 0 then 0
  else
    let speed_mps := distance / time_diff
    let speed_mph := speed_mps * mph_factor
    pyRound1 speed_mph

/-- One crossing record: the Python dict that may hold keys `"start"` and
`"end"` (`self.vehicle_timestamps[track_id]`). -/
structure CrossRec where
  start : Option ℚ
  endT : Option ℚ
  deriving DecidableEq, Repr

/-- The crossing state store `self.vehicle_timestamps`: track id to record. -/
abbrev Store := List (Nat × CrossRec)

/-- Dict lookup on the store. -/
def lookupRec : Store → Nat → Option CrossRec
  | [], _ => none
  | (k, v) :: t, id => if k = id then some v else lookupRec t id

/-- Dict write on the store: replace the binding for `id` if present,
otherwise add one. -/
def setRec : Store → Nat → CrossRec → Store
  | [], id, r => [(id, r)]
  | (k, v) :: t, id, r => if k = id then (id, r) :: t else (k, v) :: setRec t id r

/-- Dict delete on the store (`del self.vehicle_timestamps[track_id]`). -/
def delRec : Store → Nat → Store
  | [], _ => []
  | (k, v) :: t, id => if k = id then t else (k, v) :: delRec t id

/-- The track ids bound in the store. -/
def keys (st : Store) : List Nat := st.map Prod.fst

/-- One tracked-object observation handed to the loop body of
`process_frame`: track id, x-coordinate of the box centre, class label and
detection confidence. -/
structure Obs where
  track_id : Nat
  x : ℚ
  label : String
  conf : ℚ
  deriving DecidableEq, Repr

/-- One emitted Detection Event (the dict appended to
`response["detected_vehicles"]`). -/
structure Detection where
  vehicle_id : Nat
  vehicle_type : String
  detection_confidence : ℚ
  timestamp : ℚ
  speed : ℚ
  deriving DecidableEq, Repr

/-- The parts of the `response` dict built by `process_frame` that the claims
concern: the vehicle counter and the list of detection events. -/
structure Response where
  number_of_vehicles_detected : Nat
  detected_vehicles : List Detection
  deriving DecidableEq, Repr

/-- Line 178–179 of the loop body: `if track_id not in self.vehicle_timestamps:
self.vehicle_timestamps[track_id] = {}` — create an empty record for an
unseen track id. -/
def step_create (st : Store) (id : Nat) : Store :=
  if lookupRec st id = none then setRec st id ⟨none, none⟩ else st

/-- Line 181–182 of the loop body: inside the start zone
`[green_line_y - 50, green_line_y + 50]` and with no `"start"` key yet,
record `start = current_time`. -/
def step_start (st : Store) (id : Nat) (x current_time : ℚ) : Store :=
  let r := (lookupRec st id).getD ⟨none, none⟩
  if (green_line_y - 50 ≤ x ∧ x ≤ green_line_y + 50) ∧ r.start = none
  then setRec st id ⟨some current_time, r.endT⟩ else st

/-- The loop body of `process_frame` for a single observation: create an
empty record for an unseen id, take the start transition inside the start
zone, take the end transition strictly past the end line (set `end`, compute
speed, append the event, delete the record). -/
def processObs (st : Store) (resp : Response) (current_time frame_timestamp : ℚ)
    (o : Obs) : Store × Response :=
  let st1 := step_create st o.track_id
  let st2 := step_start st1 o.track_id o.x current_time
  let r2 := (lookupRec st2 o.track_id).getD ⟨none, none⟩
  if red_line_y < o.x ∧ r2.endT = none ∧ r2.start ≠ none then
    let st3 := setRec st2 o.track_id ⟨r2.start, some current_time⟩
    let r3 := (lookupRec st3 o.track_id).getD ⟨none, none⟩
    let start_time := r3.start.getD 0
    let end_time := r3.endT.getD 0
    let speed := calculate_speed start_time end_time
    let ev : Detection :=
      ⟨o.track_id, o.label, o.conf, frame_timestamp, speed⟩
    (delRec st3 o.track_id,
     { resp with detected_vehicles := resp.detected_vehicles ++ [ev] })
  else (st2, resp)

/-- The method `TrafficMonitoringSystem.process_frame` restricted to the crossing state
machine: fold the loop body over the frame's observations, starting from a
response with the counter at 0 and no detected vehicles. -/
def process_frame (st : Store) (obs : List Obs) (current_time frame_timestamp : ℚ) :
    Store × Response :=
  obs.foldl (fun p o => processObs p.1 p.2 current_time frame_timestamp o)
    (st, { number_of_vehicles_detected := 0, detected_vehicles := [] })

/-- The crossing-store invariant: at most one record per track id (unique
keys), and no stored record has its `end` timestamp set. -/
def StoreInv (st : Store) : Prop :=
  (keys st).Nodup ∧ ∀ p ∈ st, p.2.endT = none

instance : DecidablePred StoreInv := fun st => by
  unfold StoreInv; infer_instance

/-! ### DatabaseManager: configuration validation -/

/-- Python truthiness of a `os.getenv` result: `not s` holds for `None` and
for the empty string. -/
def truthy (s : Option String) : Option String :=
  match s with
  | none => none
  | some v => if v.isEmpty then none else some v

/-- The constructor `DatabaseManager.__init__`, configuration part: read the three required
environment variables in order, raising `ValueError` on the first falsy one;
on success keep exactly the values read, with no defaulting. -/
def DatabaseManager_init (conn db coll : Option String) :
    Except String (String × String × String) :=
  match truthy conn with
  | none => .error "MONGODB_CONNECTION_STRING environment variable is required"
  | some c =>
    match truthy db with
    | none => .error "MONGODB_DATABASE_NAME environment variable is required"
    | some d =>
      match truthy coll with
      | none => .error "MONGODB_COLLECTION_NAME environment variable is required"
      | some l => .ok (c, d, l)

/-! ### DatabaseManager: worker/shutdown protocol

An interleaving semantics for `DatabaseManager`: the producer calling
`add_vehicle`, the `_db_worker` loop, and `shutdown`.  The store is healthy:
`insert_one` always succeeds.  Per the claim, enqueues are counted before
shutdown begins, so `add_vehicle` steps are enabled only before
`shutdown` starts. -/

/-- Control state of the `_db_worker` loop: about to test
`self.terminate_worker`; blocked in `db_queue.get(timeout=1.0)`; holding an
item, about to call `insert_one`; after `insert_one`, about to call
`task_done`; or out of the loop. -/
inductive WorkerPC
  | checkFlag
  | getting
  | gotItem
  | didInsert
  | exited
  deriving DecidableEq, Repr

/-- Control state of `shutdown`: not yet called; after
`self.terminate_worker = True`; after `self.db_thread.join(timeout)`
returned (with or without the worker having exited); after
`self.db_queue.join()` returned; after `self.client.close()`. -/
inductive ShutdownPC
  | notStarted
  | flagSet
  | joinedThread
  | drained
  | closedConn
  deriving DecidableEq, Repr

/-- Shared state of the `DatabaseManager`: queue length, the Python queue's
`unfinished_tasks` counter (incremented by `put`, decremented by
`task_done`, awaited by `join`), the termination flag, the number of
`insert_one` calls, the number of `add_vehicle` calls, and both control
states. -/
structure DBState where
  queue : Nat
  unfinished : Nat
  terminate : Bool
  writes : Nat
  enqueued : Nat
  wpc : WorkerPC
  spc : ShutdownPC
  deriving DecidableEq, Repr

/-- Interleaved small-step transitions of producer, worker and shutdown. -/
inductive DBStep : DBState → DBState → Prop
  | add_vehicle (s : DBState) (h : s.spc = .notStarted) :
      DBStep s { s with queue := s.queue + 1, unfinished := s.unfinished + 1,
                        enqueued := s.enqueued + 1 }
  | worker_sees_terminate (s : DBState) (h : s.wpc = .checkFlag)
      (ht : s.terminate = true) :
      DBStep s { s with wpc := .exited }
  | worker_enters_loop (s : DBState) (h : s.wpc = .checkFlag)
      (ht : s.terminate = false) :
      DBStep s { s with wpc := .getting }
  | worker_gets (s : DBState) (h : s.wpc = .getting) (hq : 0 < s.queue) :
      DBStep s { s with queue := s.queue - 1, wpc := .gotItem }
  | worker_get_timeout (s : DBState) (h : s.wpc = .getting) (hq : s.queue = 0) :
      DBStep s { s with wpc := .checkFlag }
  | worker_inserts (s : DBState) (h : s.wpc = .gotItem) :
      DBStep s { s with writes := s.writes + 1, wpc := .didInsert }
  | worker_task_done (s : DBState) (h : s.wpc = .didInsert) :
      DBStep s { s with unfinished := s.unfinished - 1, wpc := .checkFlag }
  | shutdown_sets_flag (s : DBState) (h : s.spc = .notStarted) :
      DBStep s { s with terminate := true, spc := .flagSet }
  | shutdown_join_returns (s : DBState) (h : s.spc = .flagSet) :
      DBStep s { s with spc := .joinedThread }
  | shutdown_queue_join (s : DBState) (h : s.spc = .joinedThread)
      (hq : s.unfinished = 0) :
      DBStep s { s with spc := .drained }
  | shutdown_close (s : DBState) (h : s.spc = .drained) :
      DBStep s { s with spc := .closedConn }

/-- The state right after `DatabaseManager.__init__`: empty queue, flag
down, worker at the top of its loop, shutdown not called. -/
def DBInit : DBState :=
  { queue := 0, unfinished := 0, terminate := false, writes := 0,
    enqueued := 0, wpc := .checkFlag, spc := .notStarted }

/-- Reachability from the initial state. -/
def DBReachable (s : DBState) : Prop := Relation.ReflTransGen DBStep DBInit s

/-- One when the worker holds an item it has not yet written. -/
def gOf : WorkerPC → Nat
  | .gotItem => 1
  | _ => 0

/-- One when the worker has written an item but not yet called `task_done`. -/
def dOf : WorkerPC → Nat
  | .didInsert => 1
  | _ => 0

/-- Inductive invariant of the shutdown protocol: accounting of enqueued
items, accounting of `unfinished_tasks`, the flag is up once shutdown has
started, and the queue is drained once `db_queue.join()` has returned. -/
def DBInv (s : DBState) : Prop :=
  s.enqueued = s.writes + s.queue + gOf s.wpc ∧
  s.unfinished = s.queue + gOf s.wpc + dOf s.wpc ∧
  (s.spc ≠ .notStarted → s.terminate = true) ∧
  ((s.spc = .drained ∨ s.spc = .closedConn) → s.unfinished = 0)

/-! ### Association-list (dict) lemmas -/

theorem lookupRec_setRec_self (st : Store) (id : Nat) (r : CrossRec) :
    lookupRec (setRec st id r) id = some r := by
  induction st with
  | nil => simp [setRec, lookupRec]
  | cons p t ih =>
    obtain ⟨k, v⟩ := p
    by_cases h : k = id <;> simp [setRec, lookupRec, h, ih]

theorem delRec_setRec (st : Store) (id : Nat) (r : CrossRec) :
    delRec (setRec st id r) id = delRec st id := by
  induction st with
  | nil => simp [setRec, delRec]
  | cons p t ih =>
    obtain ⟨k, v⟩ := p
    by_cases h : k = id <;> simp [setRec, delRec, h, ih]

theorem mem_setRec (st : Store) (id : Nat) (r : CrossRec) (p : Nat × CrossRec) :
    p ∈ setRec st id r → p = (id, r) ∨ p ∈ st := by
  induction st with
  | nil => simp [setRec]
  | cons q t ih =>
    obtain ⟨k, v⟩ := q
    by_cases h : k = id
    · simp only [setRec, if_pos h, List.mem_cons]
      rintro (rfl | hm)
      · exact Or.inl rfl
      · exact Or.inr (Or.inr hm)
    · simp only [setRec, if_neg h, List.mem_cons]
      rintro (rfl | hm)
      · exact Or.inr (Or.inl rfl)
      · rcases ih hm with h1 | h2
        · exact Or.inl h1
        · exact Or.inr (Or.inr h2)

theorem delRec_sublist (st : Store) (id : Nat) :
    List.Sublist (delRec st id) st := by
  induction st with
  | nil => simp [delRec]
  | cons p t ih =>
    obtain ⟨k, v⟩ := p
    by_cases h : k = id
    · simp only [delRec, if_pos h]
      exact List.sublist_cons_self _ _
    · simp only [delRec, if_neg h]
      exact List.Sublist.cons₂ _ ih

theorem mem_keys_setRec (st : Store) (id : Nat) (r : CrossRec) (a : Nat) :
    a ∈ keys (setRec st id r) → a = id ∨ a ∈ keys st := by
  intro ha
  simp only [keys, List.mem_map] at ha
  obtain ⟨p, hp, rfl⟩ := ha
  rcases mem_setRec st id r p hp with rfl | hmem
  · exact Or.inl rfl
  · exact Or.inr (List.mem_map.mpr ⟨p, hmem, rfl⟩)

theorem nodup_keys_setRec (st : Store) (id : Nat) (r : CrossRec)
    (h : (keys st).Nodup) : (keys (setRec st id r)).Nodup := by
  induction st with
  | nil => simp [setRec, keys]
  | cons p t ih =>
    obtain ⟨k, v⟩ := p
    simp only [keys, List.map_cons, List.nodup_cons] at h
    by_cases hk : k = id
    · simp only [setRec, if_pos hk, keys, List.map_cons, List.nodup_cons]
      exact ⟨hk ▸ h.1, h.2⟩
    · have ih2 := ih h.2
      simp only [setRec, if_neg hk, keys, List.map_cons, List.nodup_cons]
      refine ⟨fun hm => ?_, ih2⟩
      rcases mem_keys_setRec t id r k hm with rfl | hm2
      · exact hk rfl
      · exact h.1 hm2

theorem nodup_keys_delRec (st : Store) (id : Nat)
    (h : (keys st).Nodup) : (keys (delRec st id)).Nodup :=
  ((delRec_sublist st id).map Prod.fst).nodup h

theorem lookupRec_eq_none_of_not_mem (st : Store) (id : Nat)
    (h : id ∉ keys st) : lookupRec st id = none := by
  induction st with
  | nil => simp [lookupRec]
  | cons p t ih =>
    obtain ⟨k, v⟩ := p
    simp only [keys, List.map_cons, List.mem_cons, not_or] at h
    have hk : k ≠ id := fun hke => h.1 hke.symm
    simp only [lookupRec, if_neg hk]
    exact ih h.2

theorem lookupRec_mem (st : Store) (id : Nat) (r : CrossRec) :
    lookupRec st id = some r → (id, r) ∈ st := by
  induction st with
  | nil => simp [lookupRec]
  | cons p t ih =>
    obtain ⟨k, v⟩ := p
    by_cases h : k = id
    · simp only [lookupRec, if_pos h, Option.some.injEq]
      rintro rfl
      exact h ▸ List.mem_cons_self _ _
    · simp only [lookupRec, if_neg h, List.mem_cons]
      intro hl
      exact Or.inr (ih hl)

theorem lookupRec_delRec_self (st : Store) (id : Nat)
    (h : (keys st).Nodup) : lookupRec (delRec st id) id = none := by
  induction st with
  | nil => simp [delRec, lookupRec]
  | cons p t ih =>
    obtain ⟨k, v⟩ := p
    simp only [keys, List.map_cons, List.nodup_cons] at h
    by_cases hk : k = id
    · simp only [delRec, if_pos hk]
      exact lookupRec_eq_none_of_not_mem t id (hk ▸ h.1)
    · simp only [delRec, if_neg hk, lookupRec, if_neg hk]
      exact ih h.2

/-! ### The crossing-store invariant -/

theorem lookupRec_getD_endT (st : Store) (id : Nat)
    (h : ∀ p ∈ st, p.2.endT = none) :
    ((lookupRec st id).getD ⟨none, none⟩).endT = none := by
  cases hl : lookupRec st id with
  | none => rfl
  | some r => simpa using h (id, r) (lookupRec_mem st id r hl)

theorem step_create_storeInv (st : Store) (id : Nat) (h : StoreInv st) :
    StoreInv (step_create st id) := by
  unfold step_create
  split
  · refine ⟨nodup_keys_setRec st id _ h.1, fun p hp => ?_⟩
    rcases mem_setRec st id _ p hp with rfl | hm
    · rfl
    · exact h.2 p hm
  · exact h

theorem step_start_storeInv (st : Store) (id : Nat) (x ct : ℚ) (h : StoreInv st) :
    StoreInv (step_start st id x ct) := by
  simp only [step_start]
  split
  · refine ⟨nodup_keys_setRec st id _ h.1, fun p hp => ?_⟩
    rcases mem_setRec st id _ p hp with rfl | hm
    · exact lookupRec_getD_endT st id h.2
    · exact h.2 p hm
  · exact h

theorem delRec_storeInv (st : Store) (id : Nat) (h : StoreInv st) :
    StoreInv (delRec st id) :=
  ⟨nodup_keys_delRec st id h.1,
   fun p hp => h.2 p ((delRec_sublist st id).subset hp)⟩

theorem processObs_storeInv (st : Store) (resp : Response) (ct ft : ℚ)
    (o : Obs) (h : StoreInv st) : StoreInv (processObs st resp ct ft o).1 := by
  have h2 := step_start_storeInv (step_create st o.track_id) o.track_id o.x ct
    (step_create_storeInv st o.track_id h)
  simp only [processObs]
  split
  · simp only [delRec_setRec]
    exact delRec_storeInv _ _ h2
  · exact h2

theorem foldl_storeInv (obs : List Obs) (p : Store × Response) (ct ft : ℚ)
    (h : StoreInv p.1) :
    StoreInv (obs.foldl (fun p o => processObs p.1 p.2 ct ft o) p).1 := by
  induction obs generalizing p with
  | nil => exact h
  | cons o t ih => exact ih _ (processObs_storeInv _ _ _ _ _ h)

/-! ### Transition characterisations of the loop body -/

theorem step_create_of_some (st : Store) (id : Nat) (r : CrossRec)
    (h : lookupRec st id = some r) : step_create st id = st := by
  unfold step_create
  rw [h]
  simp

theorem step_create_of_none (st : Store) (id : Nat)
    (h : lookupRec st id = none) :
    step_create st id = setRec st id ⟨none, none⟩ := by
  unfold step_create
  rw [h]
  simp

theorem lookupRec_step_create (st : Store) (id : Nat) :
    lookupRec (step_create st id) id =
      some ((lookupRec st id).getD ⟨none, none⟩) := by
  unfold step_create
  cases h : lookupRec st id with
  | none => simp [lookupRec_setRec_self]
  | some r => simpa using h

theorem step_start_of_start_some (st : Store) (id : Nat) (x ct : ℚ)
    (r : CrossRec) (s : ℚ) (h : lookupRec st id = some r)
    (hs : r.start = some s) : step_start st id x ct = st := by
  simp only [step_start, h, Option.getD_some, hs]
  simp

theorem step_start_of_out_zone (st : Store) (id : Nat) (x ct : ℚ)
    (hz : ¬ (green_line_y - 50 ≤ x ∧ x ≤ green_line_y + 50)) :
    step_start st id x ct = st := by
  simp only [step_start]
  rw [if_neg (fun hc => hz hc.1)]

theorem step_start_of_in_zone (st : Store) (id : Nat) (x ct : ℚ)
    (hz1 : green_line_y - 50 ≤ x) (hz2 : x ≤ green_line_y + 50)
    (hs : ((lookupRec st id).getD ⟨none, none⟩).start = none) :
    step_start st id x ct =
      setRec st id ⟨some ct, ((lookupRec st id).getD ⟨none, none⟩).endT⟩ := by
  simp only [step_start]
  rw [if_pos ⟨⟨hz1, hz2⟩, hs⟩]

theorem not_red_of_in_zone (x : ℚ) (hz2 : x ≤ green_line_y + 50) :
    ¬ red_line_y < x := by
  unfold green_line_y at hz2
  unfold red_line_y
  intro h
  linarith

theorem out_zone_of_red (x : ℚ) (hx : red_line_y < x) :
    ¬ (green_line_y - 50 ≤ x ∧ x ≤ green_line_y + 50) := by
  intro h
  unfold green_line_y at h
  unfold red_line_y at hx
  linarith [h.2]

theorem processObs_end (st : Store) (resp : Response) (ct ft : ℚ) (o : Obs)
    (r : CrossRec) (s : ℚ)
    (hlook : lookupRec st o.track_id = some r) (hstart : r.start = some s)
    (hend : r.endT = none) (hx : red_line_y < o.x) :
    processObs st resp ct ft o =
      (delRec st o.track_id,
       { resp with detected_vehicles := resp.detected_vehicles ++
           [⟨o.track_id, o.label, o.conf, ft, calculate_speed s ct⟩] }) := by
  simp only [processObs, step_create_of_some st o.track_id r hlook,
    step_start_of_start_some st o.track_id o.x ct r s hlook hstart,
    hlook, Option.getD_some]
  rw [if_pos ⟨hx, by rw [hend], by rw [hstart]; simp⟩]
  simp only [lookupRec_setRec_self, Option.getD_some, delRec_setRec, hstart,
    Option.getD_some]

theorem processObs_fresh_out_zone (st : Store) (resp : Response) (ct ft : ℚ)
    (o : Obs) (hlook : lookupRec st o.track_id = none)
    (hz : ¬ (green_line_y - 50 ≤ o.x ∧ o.x ≤ green_line_y + 50)) :
    processObs st resp ct ft o = (setRec st o.track_id ⟨none, none⟩, resp) := by
  simp only [processObs, step_create_of_none st o.track_id hlook,
    step_start_of_out_zone _ o.track_id o.x ct hz, lookupRec_setRec_self,
    Option.getD_some]
  rw [if_neg (fun h => h.2.2 rfl)]

theorem processObs_counter (st : Store) (resp : Response) (ct ft : ℚ) (o : Obs) :
    (processObs st resp ct ft o).2.number_of_vehicles_detected =
      resp.number_of_vehicles_detected := by
  simp only [processObs]
  split <;> rfl

theorem foldl_counter (obs : List Obs) (ct ft : ℚ) (p : Store × Response) :
    ((obs.foldl (fun p o => processObs p.1 p.2 ct ft o) p).2).number_of_vehicles_detected =
      p.2.number_of_vehicles_detected := by
  induction obs generalizing p with
  | nil => rfl
  | cons o t ih =>
    rw [List.foldl_cons, ih]
    exact processObs_counter p.1 p.2 ct ft o

/-! ### Claim theorems: frame processor -/

/-- C1: for an observation whose x-coordinate is strictly past the end line,
when the track's record has a `start` but no `end`, the loop body of
`process_frame` computes the speed from `(start, now, distance)`, appends
exactly one Detection Event `{track_id, class, confidence, timestamp, speed}`
to `detected_vehicles`, and deletes the crossing record; on a one-observation
frame, `process_frame` returns exactly that event. -/
theorem end_transition_emits_once_and_deletes
    (st : Store) (resp : Response) (ct ft : ℚ) (o : Obs) (r : CrossRec) (s : ℚ)
    (hlook : lookupRec st o.track_id = some r) (hstart : r.start = some s)
    (hend : r.endT = none) (hx : red_line_y < o.x) :
    processObs st resp ct ft o =
      (delRec st o.track_id,
       { resp with detected_vehicles := resp.detected_vehicles ++
           [⟨o.track_id, o.label, o.conf, ft, calculate_speed s ct⟩] }) ∧
    ((keys st).Nodup →
      lookupRec (processObs st resp ct ft o).1 o.track_id = none) ∧
    process_frame st [o] ct ft =
      (delRec st o.track_id,
       { number_of_vehicles_detected := 0,
         detected_vehicles := [⟨o.track_id, o.label, o.conf, ft, calculate_speed s ct⟩] }) := by
  have he := processObs_end st resp ct ft o r s hlook hstart hend hx
  refine ⟨he, fun hnod => ?_, ?_⟩
  · rw [he]
    exact lookupRec_delRec_self st o.track_id hnod
  · have he2 := processObs_end st ⟨0, []⟩ ct ft o r s hlook hstart hend hx
    simp [process_frame, he2]

/-- C1 witness: track 5 entered at time 100, observed at x = 1200 past the
end line at time 203/2; one event is emitted and the record is removed. -/
theorem end_transition_emits_once_and_deletes_witness :
    processObs [(5, ⟨some 100, none⟩)] ⟨0, []⟩ (203/2) 42 ⟨5, 1200, "car", 9/10⟩ =
      (delRec [(5, ⟨some 100, none⟩)] 5,
       { number_of_vehicles_detected := 0,
         detected_vehicles := [⟨5, "car", 9/10, 42, calculate_speed 100 (203/2)⟩] }) ∧
    lookupRec (processObs [(5, ⟨some 100, none⟩)] ⟨0, []⟩ (203/2) 42
      ⟨5, 1200, "car", 9/10⟩).1 5 = none := by
  have h := end_transition_emits_once_and_deletes [(5, ⟨some 100, none⟩)] ⟨0, []⟩
    (203/2) 42 ⟨5, 1200, "car", 9/10⟩ ⟨some 100, none⟩ 100
    rfl rfl rfl (by norm_num [red_line_y])
  exact ⟨h.1, h.2.1 (by simp [keys])⟩

/-- C4: `StoreInv` — at most one crossing record per track id, and no stored
record with its `end` set — holds of the initial empty store and is preserved
by every `process_frame` call. -/
theorem storeInv_initial_and_preserved :
    StoreInv ([] : Store) ∧
    ∀ (st : Store) (obs : List Obs) (ct ft : ℚ),
      StoreInv st → StoreInv (process_frame st obs ct ft).1 := by
  refine ⟨⟨List.nodup_nil, by simp⟩, fun st obs ct ft h => ?_⟩
  exact foldl_storeInv obs (st, ⟨0, []⟩) ct ft h

/-- C4 witness: the invariant holds after processing a frame that completes
a crossing for track 3. -/
theorem storeInv_initial_and_preserved_witness :
    StoreInv (process_frame [(3, ⟨some 5, none⟩)] [⟨3, 1200, "car", 1⟩] 6 0).1 :=
  storeInv_initial_and_preserved.2 [(3, ⟨some 5, none⟩)] [⟨3, 1200, "car", 1⟩] 6 0
    (by constructor <;> simp [keys])

/-- C5: once a track id has produced its Detection Event (deleting its
record), replaying the same one-observation frame emits no further event. -/
theorem replay_is_idempotent
    (st : Store) (ct ft ct2 ft2 : ℚ) (o : Obs) (r : CrossRec) (s : ℚ)
    (hnod : (keys st).Nodup)
    (hlook : lookupRec st o.track_id = some r) (hstart : r.start = some s)
    (hend : r.endT = none) (hx : red_line_y < o.x) :
    (process_frame st [o] ct ft).2.detected_vehicles =
      [⟨o.track_id, o.label, o.conf, ft, calculate_speed s ct⟩] ∧
    (process_frame (process_frame st [o] ct ft).1 [o] ct2 ft2).2.detected_vehicles = [] := by
  have he := processObs_end st ⟨0, []⟩ ct ft o r s hlook hstart hend hx
  have h1 : process_frame st [o] ct ft =
      (delRec st o.track_id,
       ⟨0, [⟨o.track_id, o.label, o.conf, ft, calculate_speed s ct⟩]⟩) := by
    simp [process_frame, he]
  refine ⟨by rw [h1], ?_⟩
  rw [h1]
  have h2 := processObs_fresh_out_zone (delRec st o.track_id) ⟨0, []⟩ ct2 ft2 o
    (lookupRec_delRec_self st o.track_id hnod) (out_zone_of_red o.x hx)
  simp [process_frame, h2]

/-- C5 witness: replaying the frame that completed track 5's crossing emits
nothing the second time. -/
theorem replay_is_idempotent_witness :
    (process_frame [(5, ⟨some 100, none⟩)] [⟨5, 1200, "car", 9/10⟩] (203/2) 42).2.detected_vehicles =
      [⟨5, "car", 9/10, 42, calculate_speed 100 (203/2)⟩] ∧
    (process_frame (process_frame [(5, ⟨some 100, none⟩)] [⟨5, 1200, "car", 9/10⟩]
        (203/2) 42).1 [⟨5, 1200, "car", 9/10⟩] 200 43).2.detected_vehicles = [] :=
  replay_is_idempotent [(5, ⟨some 100, none⟩)] (203/2) 42 200 43
    ⟨5, 1200, "car", 9/10⟩ ⟨some 100, none⟩ 100 (by simp [keys])
    rfl rfl rfl (by norm_num [red_line_y])

/-- C6: inside the start zone `[green_line_y - 50, green_line_y + 50]`, a
record with no `start` gets `start := current_time`; a record that already
has a `start` is left entirely unchanged by a start-zone observation. -/
theorem start_transition_spec
    (st : Store) (resp : Response) (ct ft : ℚ) (o : Obs)
    (hz1 : green_line_y - 50 ≤ o.x) (hz2 : o.x ≤ green_line_y + 50) :
    (((lookupRec st o.track_id).getD ⟨none, none⟩).start = none →
      lookupRec (processObs st resp ct ft o).1 o.track_id =
        some ⟨some ct, ((lookupRec st o.track_id).getD ⟨none, none⟩).endT⟩) ∧
    (∀ (r : CrossRec) (s : ℚ), lookupRec st o.track_id = some r → r.start = some s →
      processObs st resp ct ft o = (st, resp)) := by
  have hnred := not_red_of_in_zone o.x hz2
  constructor
  · intro hs
    have hc := lookupRec_step_create st o.track_id
    have hs1 : ((lookupRec (step_create st o.track_id) o.track_id).getD
        ⟨none, none⟩).start = none := by
      rw [hc, Option.getD_some]
      exact hs
    have hstep := step_start_of_in_zone (step_create st o.track_id) o.track_id
      o.x ct hz1 hz2 hs1
    simp only [processObs, hstep, hc, Option.getD_some, lookupRec_setRec_self]
    rw [if_neg (fun h => hnred h.1)]
    simp [lookupRec_setRec_self]
  · intro r s hlook hs
    have h1 := step_create_of_some st o.track_id r hlook
    have h2 := step_start_of_start_some st o.track_id o.x ct r s hlook hs
    simp only [processObs, h1, h2, hlook, Option.getD_some]
    rw [if_neg (fun h => hnred h.1)]

/-- C6 witness: at x = 470 in the start zone, track 7's fresh record gets
`start := 55`; track 8's record with `start = 10` is untouched. -/
theorem start_transition_spec_witness :
    lookupRec (processObs [(7, ⟨none, none⟩)] ⟨0, []⟩ 55 0 ⟨7, 470, "car", 1⟩).1 7 =
      some ⟨some 55, none⟩ ∧
    processObs [(8, ⟨some 10, none⟩)] ⟨0, []⟩ 55 0 ⟨8, 470, "car", 1⟩ =
      ([(8, ⟨some 10, none⟩)], ⟨0, []⟩) := by
  constructor
  · exact (start_transition_spec [(7, ⟨none, none⟩)] ⟨0, []⟩ 55 0 ⟨7, 470, "car", 1⟩
      (by norm_num [green_line_y]) (by norm_num [green_line_y])).1 rfl
  · exact (start_transition_spec [(8, ⟨some 10, none⟩)] ⟨0, []⟩ 55 0 ⟨8, 470, "car", 1⟩
      (by norm_num [green_line_y]) (by norm_num [green_line_y])).2
      ⟨some 10, none⟩ 10 rfl rfl

/-- C7 counterexample: a track observed only at x = 0 — never inside the
start zone — still gets a crossing record in the store after the frame, so
the claim "no record exists for an id never observed inside the zone" fails
on the code (lines 178–179 create a record for every observed id). -/
theorem record_without_start_zone_cex :
    ¬ (green_line_y - 50 ≤ (0 : ℚ) ∧ (0 : ℚ) ≤ green_line_y + 50) ∧
    ¬ red_line_y < (0 : ℚ) ∧
    (process_frame [] [⟨1, 0, "car", 1⟩] 0 0).1 = [(1, ⟨none, none⟩)] := by
  refine ⟨by norm_num [green_line_y], by norm_num [red_line_y], ?_⟩
  have h := processObs_fresh_out_zone [] ⟨0, []⟩ 0 0 ⟨1, 0, "car", 1⟩ rfl
    (by norm_num [green_line_y])
  simp [process_frame, h, setRec]

/-- C7 amended: a crossing record is created on a track id's first
observation in any position; it carries a `start_time` exactly when that
observation lay inside the start zone, and never an `end_time`. -/
theorem record_created_on_first_observation
    (st : Store) (resp : Response) (ct ft : ℚ) (o : Obs)
    (hlook : lookupRec st o.track_id = none) :
    lookupRec (processObs st resp ct ft o).1 o.track_id =
      some ⟨if green_line_y - 50 ≤ o.x ∧ o.x ≤ green_line_y + 50
            then some ct else none, none⟩ := by
  by_cases hz : green_line_y - 50 ≤ o.x ∧ o.x ≤ green_line_y + 50
  · rw [if_pos hz]
    have hc := step_create_of_none st o.track_id hlook
    have hl1 : lookupRec (step_create st o.track_id) o.track_id =
        some ⟨none, none⟩ := by
      rw [hc]
      exact lookupRec_setRec_self st o.track_id _
    have hstep := step_start_of_in_zone (step_create st o.track_id) o.track_id
      o.x ct hz.1 hz.2 (by rw [hl1]; rfl)
    have hnred := not_red_of_in_zone o.x hz.2
    simp only [processObs, hstep, hl1, Option.getD_some, lookupRec_setRec_self]
    rw [if_neg (fun h => hnred h.1)]
    simp [lookupRec_setRec_self]
  · rw [if_neg hz]
    have h2 := processObs_fresh_out_zone st resp ct ft o hlook hz
    rw [h2]
    exact lookupRec_setRec_self st o.track_id _

/-- C7 amended witness: a first observation of track 2 at x = 700 (outside
the zone, short of the end line) creates an empty record. -/
theorem record_created_on_first_observation_witness :
    lookupRec (processObs [] ⟨0, []⟩ 9 0 ⟨2, 700, "car", 1⟩).1 2 =
      some ⟨if green_line_y - 50 ≤ (700 : ℚ) ∧ (700 : ℚ) ≤ green_line_y + 50
            then some 9 else none, none⟩ :=
  record_created_on_first_observation [] ⟨0, []⟩ 9 0 ⟨2, 700, "car", 1⟩ rfl

/-- C9: a frame with zero observations leaves the store unchanged and emits
no Detection Events, with the counter at 0. -/
theorem process_frame_empty (st : Store) (ct ft : ℚ) :
    process_frame st [] ct ft =
      (st, { number_of_vehicles_detected := 0, detected_vehicles := [] }) := rfl

/-- C10: `number_of_vehicles_detected` is initialised to 0 and never
updated, so every `process_frame` response carries 0, however many events
were appended to `detected_vehicles`. -/
theorem counter_always_zero (st : Store) (obs : List Obs) (ct ft : ℚ) :
    (process_frame st obs ct ft).2.number_of_vehicles_detected = 0 :=
  foldl_counter obs ct ft (st, ⟨0, []⟩)

/-! ### Claim theorems: speed estimator -/

/-- C2: the speed estimator clamps non-positive time differences to 0, and
otherwise returns `(distance / time_diff) × 2.23694` rounded to one decimal
place; at `(100, 101.5)` it gives 25.4, at `(100, 100)` and `(100, 99)` it
gives 0. Being a total function on ℚ it returns a numeric value on every
input. -/
theorem calculate_speed_spec (s e : ℚ) :
    (e - s ≤ 0 → calculate_speed s e = 0) ∧
    (0 < e - s → calculate_speed s e = pyRound1 (distance / (e - s) * mph_factor)) ∧
    calculate_speed 100 (203 / 2) = 127 / 5 ∧
    calculate_speed 100 100 = 0 ∧
    calculate_speed 100 99 = 0 := by
  refine ⟨fun h => ?_, fun h => ?_, ?_, ?_, ?_⟩
  · simp only [calculate_speed]
    rw [if_pos h]
  · simp only [calculate_speed]
    rw [if_neg (not_le.mpr h)]
  · unfold calculate_speed pyRound1 roundHalfEven distance mph_factor
    norm_num
  · unfold calculate_speed
    norm_num
  · unfold calculate_speed
    norm_num

/-- C2 witness: both branches of the estimator, instantiated. -/
theorem calculate_speed_spec_witness :
    calculate_speed 100 (203 / 2) = pyRound1 (distance / (203 / 2 - 100) * mph_factor) ∧
    calculate_speed 100 99 = 0 :=
  ⟨(calculate_speed_spec 100 (203 / 2)).2.1 (by norm_num),
   (calculate_speed_spec 100 99).1 (by norm_num)⟩

/-! ### Claim theorems: configuration validation -/

/-- C8: `DatabaseManager.__init__` raises an explicit error when any of the
three required settings is absent (Python-falsy), and succeeds with exactly
the given values — no default substituted — when all are present. -/
theorem DatabaseManager_init_spec (conn db coll : Option String) :
    (truthy conn = none →
      DatabaseManager_init conn db coll =
        .error "MONGODB_CONNECTION_STRING environment variable is required") ∧
    (truthy db = none → ∃ msg, DatabaseManager_init conn db coll = .error msg) ∧
    (truthy coll = none → ∃ msg, DatabaseManager_init conn db coll = .error msg) ∧
    (∀ c d l, truthy conn = some c → truthy db = some d → truthy coll = some l →
      DatabaseManager_init conn db coll = .ok (c, d, l)) := by
  refine ⟨fun h => ?_, fun h => ?_, fun h => ?_, fun c d l hc hd hl => ?_⟩
  · simp [DatabaseManager_init, h]
  · cases hc : truthy conn with
    | none =>
      exact ⟨"MONGODB_CONNECTION_STRING environment variable is required",
        by simp [DatabaseManager_init, hc]⟩
    | some c =>
      exact ⟨"MONGODB_DATABASE_NAME environment variable is required",
        by simp [DatabaseManager_init, hc, h]⟩
  · cases hc : truthy conn with
    | none =>
      exact ⟨"MONGODB_CONNECTION_STRING environment variable is required",
        by simp [DatabaseManager_init, hc]⟩
    | some c =>
      cases hd : truthy db with
      | none =>
        exact ⟨"MONGODB_DATABASE_NAME environment variable is required",
          by simp [DatabaseManager_init, hc, hd]⟩
      | some d =>
        exact ⟨"MONGODB_COLLECTION_NAME environment variable is required",
          by simp [DatabaseManager_init, hc, hd, h]⟩
  · simp [DatabaseManager_init, hc, hd, hl]

/-- C8 witness: a missing connection string fails with its message; a full
configuration constructs with exactly the given values. -/
theorem DatabaseManager_init_spec_witness :
    DatabaseManager_init none (some "trafficMonitoring") (some "vehicles") =
      .error "MONGODB_CONNECTION_STRING environment variable is required" ∧
    DatabaseManager_init (some "mongodb://localhost") (some "trafficMonitoring")
        (some "vehicles") =
      .ok ("mongodb://localhost", "trafficMonitoring", "vehicles") :=
  ⟨(DatabaseManager_init_spec none (some "trafficMonitoring") (some "vehicles")).1 rfl,
   (DatabaseManager_init_spec (some "mongodb://localhost") (some "trafficMonitoring")
      (some "vehicles")).2.2.2 _ _ _ rfl rfl rfl⟩

/-! ### Claim theorems: shutdown protocol -/

theorem DBStep_inv {s t : DBState} (hst : DBStep s t) (h : DBInv s) : DBInv t := by
  obtain ⟨h1, h2, h3, h4⟩ := h
  cases hst with
  | add_vehicle hsp =>
    refine ⟨by simp only [gOf, dOf] at *; omega,
      by simp only [gOf, dOf] at *; omega, fun hcon => h3 hcon, fun hcon => ?_⟩
    have hcon2 : s.spc = .drained ∨ s.spc = .closedConn := hcon
    rcases hcon2 with h5 | h5 <;> rw [hsp] at h5 <;> exact ShutdownPC.noConfusion h5
  | worker_sees_terminate hw ht =>
    rw [hw] at h1 h2
    exact ⟨by simp only [gOf, dOf] at *; omega,
      by simp only [gOf, dOf] at *; omega, h3, fun hcon => h4 hcon⟩
  | worker_enters_loop hw ht =>
    rw [hw] at h1 h2
    exact ⟨by simp only [gOf, dOf] at *; omega,
      by simp only [gOf, dOf] at *; omega, h3, fun hcon => h4 hcon⟩
  | worker_gets hw hq =>
    rw [hw] at h1 h2
    refine ⟨by simp only [gOf, dOf] at *; omega,
      by simp only [gOf, dOf] at *; omega, h3, fun hcon => ?_⟩
    have hu := h4 hcon
    simp only [gOf, dOf] at h2
    simp only [gOf, dOf]
    omega
  | worker_get_timeout hw hq =>
    rw [hw] at h1 h2
    exact ⟨by simp only [gOf, dOf] at *; omega,
      by simp only [gOf, dOf] at *; omega, h3, fun hcon => h4 hcon⟩
  | worker_inserts hw =>
    rw [hw] at h1 h2
    refine ⟨by simp only [gOf, dOf] at *; omega,
      by simp only [gOf, dOf] at *; omega, h3, fun hcon => ?_⟩
    have hu := h4 hcon
    simp only [gOf, dOf] at h2
    exact hu
  | worker_task_done hw =>
    rw [hw] at h1 h2
    refine ⟨by simp only [gOf, dOf] at *; omega,
      by simp only [gOf, dOf] at *; omega, h3, fun hcon => ?_⟩
    have hu := h4 hcon
    simp only [gOf, dOf] at h2
    omega
  | shutdown_sets_flag hsp =>
    refine ⟨h1, h2, fun _ => rfl, fun hcon => ?_⟩
    have hcon2 : ShutdownPC.flagSet = .drained ∨ ShutdownPC.flagSet = .closedConn := hcon
    rcases hcon2 with h5 | h5 <;> exact ShutdownPC.noConfusion h5
  | shutdown_join_returns hsp =>
    refine ⟨h1, h2, fun _ => h3 (by rw [hsp]; exact fun hc => ShutdownPC.noConfusion hc),
      fun hcon => ?_⟩
    have hcon2 : ShutdownPC.joinedThread = .drained ∨
        ShutdownPC.joinedThread = .closedConn := hcon
    rcases hcon2 with h5 | h5 <;> exact ShutdownPC.noConfusion h5
  | shutdown_queue_join hsp hq =>
    exact ⟨h1, h2, fun _ => h3 (by rw [hsp]; exact fun hc => ShutdownPC.noConfusion hc),
      fun _ => hq⟩
  | shutdown_close hsp =>
    exact ⟨h1, h2, fun _ => h3 (by rw [hsp]; exact fun hc => ShutdownPC.noConfusion hc),
      fun _ => h4 (Or.inl hsp)⟩

theorem DBReachable_inv {s : DBState} (h : DBReachable s) : DBInv s := by
  unfold DBReachable at h
  induction h with
  | refl =>
    refine ⟨rfl, rfl, fun hcon => absurd rfl hcon, fun hcon => ?_⟩
    cases hcon <;> simp_all [DBInit]
  | tail hab hbc ih => exact DBStep_inv hbc ih

/-- C3: in every execution (with a healthy store), once `shutdown` has
closed the connection, the number of `insert_one` calls equals the number of
`add_vehicle` calls made before shutdown began, and the queue was fully
drained (`unfinished_tasks = 0`, empty queue) before the close. -/
theorem shutdown_exact_delivery (s : DBState) (h : DBReachable s)
    (hc : s.spc = .closedConn) :
    s.writes = s.enqueued ∧ s.queue = 0 ∧ s.unfinished = 0 := by
  obtain ⟨h1, h2, _, h4⟩ := DBReachable_inv h
  have hu : s.unfinished = 0 := h4 (Or.inr hc)
  refine ⟨by omega, by omega, hu⟩

/-- C3 witness: a run that enqueues one event, writes it, and shuts down
cleanly reaches the closed state with one write for one enqueue. -/
theorem shutdown_exact_delivery_witness :
    ({ queue := 0, unfinished := 0, terminate := true, writes := 1, enqueued := 1,
       wpc := .checkFlag, spc := .closedConn } : DBState).writes =
      ({ queue := 0, unfinished := 0, terminate := true, writes := 1, enqueued := 1,
         wpc := .checkFlag, spc := .closedConn } : DBState).enqueued ∧
    ({ queue := 0, unfinished := 0, terminate := true, writes := 1, enqueued := 1,
       wpc := .checkFlag, spc := .closedConn } : DBState).queue = 0 ∧
    ({ queue := 0, unfinished := 0, terminate := true, writes := 1, enqueued := 1,
       wpc := .checkFlag, spc := .closedConn } : DBState).unfinished = 0 := by
  refine shutdown_exact_delivery _ ?_ rfl
  exact .tail (.tail (.tail (.tail (.tail (.tail (.tail (.tail (.tail .refl
    (DBStep.add_vehicle ⟨0, 0, false, 0, 0, .checkFlag, .notStarted⟩ rfl))
    (DBStep.worker_enters_loop ⟨1, 1, false, 0, 1, .checkFlag, .notStarted⟩ rfl rfl))
    (DBStep.worker_gets ⟨1, 1, false, 0, 1, .getting, .notStarted⟩ rfl (by decide)))
    (DBStep.worker_inserts ⟨0, 1, false, 0, 1, .gotItem, .notStarted⟩ rfl))
    (DBStep.worker_task_done ⟨0, 1, false, 1, 1, .didInsert, .notStarted⟩ rfl))
    (DBStep.shutdown_sets_flag ⟨0, 0, false, 1, 1, .checkFlag, .notStarted⟩ rfl))
    (DBStep.shutdown_join_returns ⟨0, 0, true, 1, 1, .checkFlag, .flagSet⟩ rfl))
    (DBStep.shutdown_queue_join ⟨0, 0, true, 1, 1, .checkFlag, .joinedThread⟩ rfl rfl))
    (DBStep.shutdown_close ⟨0, 0, true, 1, 1, .checkFlag, .drained⟩ rfl)

end Traffic
